import Mathlib

/-!
Shallow embedding of `cloudwatch_writer.go` (package `cloudwatchwriter`).

Go `time.Duration` and nanosecond timestamps are embedded as `Int`
(int64 nanoseconds); byte counts as `Nat`; Go `*string` as `Option String`;
Go `error` values as `Option GoError`, with `GoError` covering the typed
errors the code inspects (`types.InvalidSequenceTokenException`,
`types.ResourceNotFoundException`), plain `errors.New` errors and
`errors.Wrap` wrappers.  The external CloudWatch client is an oracle:
a function from the index of the call to the response the client gives.
-/

namespace CloudWatchWriter

/-- `minBatchInterval time.Duration = 200000000` (200 ms), line 18. -/
def minBatchInterval : Int := 200000000

/-- `defaultBatchInterval time.Duration = 5000000000` (5 s), line 20. -/
def defaultBatchInterval : Int := 5000000000

/-- `batchSizeLimit = 1048576` (1 MB), line 24. -/
def batchSizeLimit : Nat := 1048576

/-- `maxNumLogEvents = 10000`, line 28. -/
def maxNumLogEvents : Nat := 10000

/-- `additionalBytesPerLogEvent = 26`, line 32. -/
def additionalBytesPerLogEvent : Nat := 26

/-- A Go `error` value, restricted to the shapes this package builds or
inspects.  `wrapped` is `errors.Wrap(err, msg)` on a non-nil `err`. -/
inductive GoError where
  | resourceNotFound
  | invalidSequenceToken (expectedSequenceToken : Option String)
  | simple (msg : String)
  | wrapped (msg : String) (err : GoError)
deriving DecidableEq, Repr

/-- `errors.As(err, &types.ResourceNotFoundException)` on a non-nil error:
walks the wrap chain. -/
def GoError.isResourceNotFound : GoError → Bool
  | .resourceNotFound => true
  | .wrapped _ e => e.isResourceNotFound
  | _ => false

/-- `errors.As(err, &types.InvalidSequenceTokenException)`: walks the wrap
chain; on success yields the exception's `ExpectedSequenceToken` field. -/
def GoError.asInvalidSequenceToken : GoError → Option (Option String)
  | .invalidSequenceToken t => some t
  | .wrapped _ e => e.asInvalidSequenceToken
  | _ => none

/-- `errors.As(err, &rnf)` where `err : Option GoError` may be Go `nil`:
a nil error matches nothing. -/
def errIsResourceNotFound : Option GoError → Bool
  | some e => e.isResourceNotFound
  | none => false

/-- `errors.Wrap(err, msg)` from github.com/pkg/errors: returns Go `nil`
when `err` is nil. -/
def errorsWrap (msg : String) (err : Option GoError) : Option GoError :=
  err.map (GoError.wrapped msg)

/-- `types.InputLogEvent`: `Message *string`, `Timestamp *int64`
(timestamp in epoch milliseconds).  The timestamp pointer is always set by
`Write`, so it is embedded as a plain `Int`. -/
structure InputLogEvent where
  message : Option String
  timestamp : Int
deriving DecidableEq, Repr

/-- The writer state that `Write` touches: the FIFO queue (`lane.Queue`,
enqueue at the back, dequeue at the front) and the `err` field guarded by
the RWMutex.  Every item `Write` enqueues is an `InputLogEvent`. -/
structure WriteState where
  queue : List InputLogEvent
  err : Option GoError
deriving DecidableEq, Repr

/-- `Write`, lines 142-157.  `nowNanos` is `time.Now().UTC().UnixNano()`;
the event timestamp is `nowNanos / int64(time.Millisecond)`, i.e. division
by 1000000.  Returns `(n, err)` and the updated state: the event is always
enqueued; a stored send error is returned with 0 bytes and cleared. -/
def Write (nowNanos : Int) (log : String) (s : WriteState) :
    (Nat × Option GoError) × WriteState :=
  let event : InputLogEvent := { message := some log, timestamp := nowNanos / 1000000 }
  let s1 : WriteState := { s with queue := s.queue ++ [event] }
  match s1.err with
  | some lastErr => ((0, some lastErr), { s1 with err := none })
  | none => ((log.length, none), s1)

/-- The writer state that `SetBatchInterval` touches. -/
structure ConfigState where
  batchInterval : Int
deriving DecidableEq, Repr

/-- `SetBatchInterval`, lines 90-97: rejects an interval below
`minBatchInterval` without touching the state, otherwise stores it. -/
def SetBatchInterval (interval : Int) (s : ConfigState) :
    Option GoError × ConfigState :=
  if interval < minBatchInterval then
    (some (GoError.simple "supplied batch interval is less than the minimum"), s)
  else
    (none, { s with batchInterval := interval })

/-- Response of one `client.PutLogEvents` call: either an output carrying
`NextSequenceToken`, or an error. -/
inductive PutLogEventsResult where
  | ok (nextSequenceToken : Option String)
  | err (e : GoError)
deriving DecidableEq, Repr

/-- The writer state that `sendBatch` touches (`nextSequenceToken` and
`err`), together with the trace of remote `PutLogEvents` calls it has
issued: for each call, the `SequenceToken` passed in the input. -/
structure SenderState where
  nextSequenceToken : Option String
  err : Option GoError
  attempts : List (Option String)
deriving DecidableEq, Repr

/-- `sendBatch`, lines 215-239.  `client n` is the response of the
`(n+1)`-st `PutLogEvents` call made through this sender state.  No-op when
`retryNum > 1` or the batch is empty; on `InvalidSequenceTokenException`
adopts the expected token and recurses with `retryNum + 1`; on any other
error stores it in `err`; on success stores the returned token. -/
def sendBatch (client : Nat → PutLogEventsResult) (batch : List InputLogEvent)
    (retryNum : Nat) (s : SenderState) : SenderState :=
  if h : 1 < retryNum ∨ batch = [] then s
  else
    let s1 : SenderState := { s with attempts := s.attempts ++ [s.nextSequenceToken] }
    match client s.attempts.length with
    | .ok next => { s1 with nextSequenceToken := next }
    | .err e =>
      match e.asInvalidSequenceToken with
      | some expected =>
        sendBatch client batch (retryNum + 1) { s1 with nextSequenceToken := expected }
      | none => { s1 with err := some e }
termination_by 2 - retryNum
decreasing_by
  push_neg at h
  omega

/-- `messageSize` of one event, line 192: `len(*logEvent.Message) + 26`.
Dispatcher batches only ever contain events whose message is non-nil
(line 187 skips the others), so the `none` case is never reached there. -/
def eventSize (e : InputLogEvent) : Nat :=
  (match e.message with
   | some m => m.length
   | none => 0) + additionalBytesPerLogEvent

/-- The `sizeBytes` of a batch: the sum of `len(message) + 26` over its
events — exactly what the local `batchSize` accumulator tracks. -/
def sizeBytes (batch : List InputLogEvent) : Nat :=
  (batch.map eventSize).sum

/-- The local state of one `queueMonitor` loop (lines 159-212): the
accumulating `batch` with its running `batchSize`, the `nextSendTime`
deadline, plus — for the proofs — the list `flushed` of every batch passed
to `sendBatch` so far, and whether `close(c.done)` has run. -/
structure DispatcherState where
  batch : List InputLogEvent
  batchSize : Nat
  nextSendTime : Int
  flushed : List (List InputLogEvent)
  done : Bool
deriving DecidableEq, Repr

/-- The environment of one iteration of the `queueMonitor` loop: the value
of `time.Now()` during the iteration, the `isClosing()` flag, and the
result of `queue.Dequeue()` (`none` = empty queue).  Enqueued items are
always `*types.InputLogEvent`, so the type assertion of line 186 always
succeeds and the dequeued item is modelled as `Option InputLogEvent`. -/
structure CycleInput where
  now : Int
  closing : Bool
  item : Option InputLogEvent
deriving DecidableEq, Repr

/-- Result of one loop iteration: continue looping, or return (only after
`close(c.done)`, line 179-180). -/
inductive StepResult where
  | next (s : DispatcherState)
  | halt (s : DispatcherState)
deriving DecidableEq, Repr

/-- The state carried by a `StepResult`. -/
def StepResult.state : StepResult → DispatcherState
  | .next s => s
  | .halt s => s

/-- Lines 165-170, the timer branch: `time.Now().After(nextSendTime)` is
`nextSendTime < now`.  The source computes `nextSendTime.Add(interval)`
and discards the result (`time.Time.Add` is pure), so the stored deadline
is left unchanged here — faithfully reproduced. -/
def timerFlush (c : CycleInput) (s : DispatcherState) : DispatcherState :=
  if s.nextSendTime < c.now then
    { s with flushed := s.flushed ++ [s.batch], batch := [], batchSize := 0 }
  else s

/-- Lines 205-210: after appending, flush when the batch has reached
`maxNumLogEvents` (`len(batch) >= maxNumLogEvents`), resetting the
deadline to `time.Now().Add(interval)`. -/
def countCheck (interval now : Int) (s2 : DispatcherState) : DispatcherState :=
  if maxNumLogEvents ≤ s2.batch.length then
    { s2 with flushed := s2.flushed ++ [s2.batch], batch := [], batchSize := 0,
              nextSendTime := now + interval }
  else s2

/-- Lines 202-210: `batch = append(batch, *logEvent)`,
`batchSize += messageSize`, then the count check. -/
def appendAndCountCheck (interval now : Int) (logEvent : InputLogEvent)
    (messageSize : Nat) (s1 : DispatcherState) : DispatcherState :=
  countCheck interval now
    { s1 with batch := s1.batch ++ [logEvent],
              batchSize := s1.batchSize + messageSize }

/-- Lines 192-210: handle one dequeued event with message `m`
(`messageSize = len(m) + 26`).  Flush first if the event would push
`batchSize` over `batchSizeLimit` (resetting the deadline to
`time.Now().Add(interval)`); append; flush again if the batch has reached
`maxNumLogEvents`. -/
def processEvent (interval : Int) (now : Int) (logEvent : InputLogEvent)
    (m : String) (s : DispatcherState) : DispatcherState :=
  appendAndCountCheck interval now logEvent (m.length + additionalBytesPerLogEvent)
    (if batchSizeLimit < s.batchSize + (m.length + additionalBytesPerLogEvent) then
      { s with flushed := s.flushed ++ [s.batch], batch := [], batchSize := 0,
               nextSendTime := now + interval }
     else s)

/-- One iteration of the `queueMonitor` loop, lines 164-211.  `interval`
is `getBatchInterval()`.  All `sendBatch(batch, 0)` call sites append
their argument to `flushed`. -/
def queueMonitorStep (interval : Int) (c : CycleInput) (s : DispatcherState) :
    StepResult :=
  let s0 := timerFlush c s
  match c.item with
  | none =>
    if c.closing then
      .halt { s0 with flushed := s0.flushed ++ [s0.batch], done := true }
    else
      .next s0
  | some logEvent =>
    match logEvent.message with
    | none => .next s0
    | some m => .next (processEvent interval c.now logEvent m s0)

/-- The `queueMonitor` loop run over a finite trace of cycle environments,
stopping as soon as an iteration returns (further inputs are ignored: the
goroutine has exited). -/
def queueMonitorRun (interval : Int) : List CycleInput → DispatcherState →
    DispatcherState
  | [], s => s
  | c :: cs, s =>
    match queueMonitorStep interval c s with
    | .halt s1 => s1
    | .next s1 => queueMonitorRun interval cs s1

/-- Lines 160-162: the dispatcher starts with an empty batch and
`nextSendTime = time.Now().Add(getBatchInterval())`. -/
def initialDispatcherState (startNow interval : Int) : DispatcherState :=
  { batch := [], batchSize := 0, nextSendTime := startNow + interval,
    flushed := [], done := false }

/-- The batches a run actually hands to the remote `PutLogEvents` call:
`sendBatch` is a no-op on an empty batch (line 216), so exactly the
non-empty flushed batches reach the remote service. -/
def remoteBatches (flushed : List (List InputLogEvent)) :
    List (List InputLogEvent) :=
  flushed.filter (fun b => !b.isEmpty)

/-- `types.LogStream`, restricted to the one field the code reads:
`UploadSequenceToken *string`. -/
structure LogStream where
  uploadSequenceToken : Option String
deriving DecidableEq, Repr

/-- `cloudwatchlogs.DescribeLogStreamsOutput`, restricted to `LogStreams`. -/
structure DescribeLogStreamsOutput where
  logStreams : List LogStream
deriving DecidableEq, Repr

/-- The client oracle used at bootstrap.  `describeLogStreams n` is the
Go pair `(output, err)` of the `(n+1)`-st `DescribeLogStreams` call —
both components may independently be nil; `createLogGroup n` is the error
of the `(n+1)`-st `CreateLogGroup` call; `createLogStream` the error of
the `CreateLogStream` call. -/
structure BootstrapClient where
  describeLogStreams : Nat → Option DescribeLogStreamsOutput × Option GoError
  createLogGroup : Nat → Option GoError
  createLogStream : Option GoError

/-- How many calls of each kind `getOrCreateLogStream` has issued. -/
structure BootstrapTrace where
  describeCalls : Nat
  createLogGroupCalls : Nat
  createLogStreamCalls : Nat
deriving DecidableEq, Repr

/-- `getOrCreateLogStream`, lines 266-301, with explicit fuel: the Go
recursion at line 281 is unconditional, so the embedding returns `none`
when the recursion outruns the supplied fuel.  `some (stream, err)` is the
Go return pair.  Note line 283: when `output == nil` and `err == nil`, the
code returns `errors.Wrap(nil, ...)`, which is nil — so the result is
`(none, none)`: a nil stream with a nil error. -/
def getOrCreateLogStream (client : BootstrapClient) :
    Nat → BootstrapTrace →
    Option (Option LogStream × Option GoError) × BootstrapTrace
  | 0, tr => (none, tr)
  | fuel + 1, tr =>
    let out := (client.describeLogStreams tr.describeCalls).1
    let err := (client.describeLogStreams tr.describeCalls).2
    let tr1 : BootstrapTrace := { tr with describeCalls := tr.describeCalls + 1 }
    if err ≠ none ∨ out = none then
      if errIsResourceNotFound err then
        let tr2 : BootstrapTrace :=
          { tr1 with createLogGroupCalls := tr1.createLogGroupCalls + 1 }
        match client.createLogGroup tr1.createLogGroupCalls with
        | some e =>
          (some (none, some (GoError.wrapped "cloudwatchlog.Client.CreateLogGroup" e)), tr2)
        | none => getOrCreateLogStream client fuel tr2
      else
        (some (none, errorsWrap "cloudwatchlogs.Client.DescribeLogStreams" err), tr1)
    else
      match out with
      | some o =>
        match o.logStreams with
        | st :: _ => (some (some st, none), tr1)
        | [] =>
          let tr2 : BootstrapTrace :=
            { tr1 with createLogStreamCalls := tr1.createLogStreamCalls + 1 }
          match client.createLogStream with
          | some e =>
            (some (none, some (GoError.wrapped "cloudwatchlogs.Client.CreateLogStream" e)), tr2)
          | none => (some (some ⟨none⟩, none), tr2)
      | none =>
        -- unreachable: this branch has `out ≠ none`
        (some (none, none), tr1)

/-- Outcome of `NewWithClient` as far as the bootstrap path is concerned. -/
inductive NewWithClientResult where
  | ok (nextSequenceToken : Option String)
  | err (e : GoError)
  | nilDereference
  | outOfFuel
deriving DecidableEq, Repr

/-- `NewWithClient`, lines 63-86, up to the point where the monitor
goroutine is started: interval validation, bootstrap, then the read
`logStream.UploadSequenceToken` at line 81 — which dereferences the
returned stream pointer; when that pointer is nil together with a nil
error, the result is `nilDereference` (a runtime panic in Go). -/
def NewWithClient (client : BootstrapClient) (batchInterval : Int)
    (fuel : Nat) : NewWithClientResult :=
  if batchInterval < minBatchInterval then
    .err (GoError.wrapped "set batch interval"
      (GoError.simple "supplied batch interval is less than the minimum"))
  else
    match (getOrCreateLogStream client fuel ⟨0, 0, 0⟩).1 with
    | none => .outOfFuel
    | some (stream, err) =>
      match err with
      | some e => .err e
      | none =>
        match stream with
        | none => .nilDereference
        | some st => .ok st.uploadSequenceToken

/-- A client whose `DescribeLogStreams` returns the Go pair `(nil, nil)`
and whose create calls succeed. -/
def nilOutputClient : BootstrapClient :=
  { describeLogStreams := fun _ => (none, none),
    createLogGroup := fun _ => none,
    createLogStream := none }

/-- A client whose `DescribeLogStreams` always fails with
`ResourceNotFoundException` and whose `CreateLogGroup` always succeeds. -/
def alwaysMissingGroupClient : BootstrapClient :=
  { describeLogStreams := fun _ => (none, some GoError.resourceNotFound),
    createLogGroup := fun _ => none,
    createLogStream := none }

/-- What actually holds of every batch handed to the remote call: at most
10,000 events, and the 1 MB size bound — except that a batch consisting of
one single event may exceed it (the size check of line 195 runs before
appending, so a lone oversized event is still appended and later sent). -/
def goodBatch (b : List InputLogEvent) : Prop :=
  b.length ≤ maxNumLogEvents ∧ (sizeBytes b ≤ batchSizeLimit ∨ b.length = 1)

/-- Inductive invariant of the `queueMonitor` loop state. -/
def dispatcherInv (s : DispatcherState) : Prop :=
  s.batchSize = sizeBytes s.batch ∧
  s.batch.length < maxNumLogEvents ∧
  (s.batchSize ≤ batchSizeLimit ∨ s.batch.length ≤ 1) ∧
  ∀ b ∈ s.flushed, goodBatch b

/-- A message of 1,048,551 bytes: `len(message) + 26 = 1048577`, one byte
over `batchSizeLimit`. -/
def hugeMessage : String := String.mk (List.replicate 1048551 'a')

/-- The event a single `Write` of `hugeMessage` enqueues. -/
def hugeEvent : InputLogEvent := { message := some hugeMessage, timestamp := 0 }

/-- A dispatcher trace: one cycle dequeues `hugeEvent`, the next finds the
queue empty with the writer closing (the final drain). -/
def hugeTrace : List CycleInput :=
  [{ now := 0, closing := false, item := some hugeEvent },
   { now := 0, closing := true, item := none }]

/-- A client that reports `InvalidSequenceTokenException` with expected
token "t1" on the first call and "t2" on the second. -/
def doubleConflictClient : Nat → PutLogEventsResult := fun n =>
  .err (.invalidSequenceToken (some (if n = 0 then "t1" else "t2")))

/-- A client that fails every call with a non-token error. -/
def networkErrorClient : Nat → PutLogEventsResult := fun _ =>
  .err (.simple "network down")

/-- A small concrete event used in witnesses. -/
def smallEvent : InputLogEvent := { message := some "hello", timestamp := 7 }

/-- A dispatcher trace: one cycle dequeues `smallEvent`, the next finds
the queue empty with the writer closing. -/
def smallTrace : List CycleInput :=
  [{ now := 0, closing := false, item := some smallEvent },
   { now := 0, closing := true, item := none }]

/-- The cycle environments seen by the dispatcher after `Close()` has set
`closing`: each remaining queue item is dequeued in FIFO order (paired
with the wall-clock reading of its cycle), then a dequeue finds the queue
empty. -/
def drainTrace (pairs : List (Int × InputLogEvent)) (tEnd : Int) :
    List CycleInput :=
  (pairs.map fun p => { now := p.1, closing := true, item := some p.2 }) ++
    [{ now := tEnd, closing := true, item := none }]

/-- The client response pattern that makes `getOrCreateLogStream` recurse:
the `(dIdx+1)`-st `DescribeLogStreams` call fails (or returns a nil
output) with a `ResourceNotFoundException`, and the `(gIdx+1)`-st
`CreateLogGroup` call succeeds. -/
def retriesMissingGroup (client : BootstrapClient) (dIdx gIdx : Nat) : Prop :=
  ((client.describeLogStreams dIdx).2 ≠ none ∨
    (client.describeLogStreams dIdx).1 = none) ∧
  errIsResourceNotFound (client.describeLogStreams dIdx).2 = true ∧
  client.createLogGroup gIdx = none

/-! ## Helper lemmas about `sendBatch` -/

theorem sendBatch_guard (client : Nat → PutLogEventsResult)
    (batch : List InputLogEvent) (retryNum : Nat) (s : SenderState)
    (h : 1 < retryNum ∨ batch = []) :
    sendBatch client batch retryNum s = s := by
  rw [sendBatch]
  simp [h]

theorem sendBatch_step (client : Nat → PutLogEventsResult)
    (batch : List InputLogEvent) (retryNum : Nat) (s : SenderState)
    (hr : retryNum ≤ 1) (hb : batch ≠ []) :
    sendBatch client batch retryNum s =
      (match client s.attempts.length with
       | .ok next =>
         { s with nextSequenceToken := next,
                  attempts := s.attempts ++ [s.nextSequenceToken] }
       | .err e =>
         match e.asInvalidSequenceToken with
         | some expected =>
           sendBatch client batch (retryNum + 1)
             { s with nextSequenceToken := expected,
                      attempts := s.attempts ++ [s.nextSequenceToken] }
         | none =>
           { s with err := some e,
                    attempts := s.attempts ++ [s.nextSequenceToken] }) := by
  rw [sendBatch]
  have h : ¬ (1 < retryNum ∨ batch = []) := by
    push_neg
    exact ⟨by omega, hb⟩
  rw [dif_neg h]

/-! ## Theorems for the claims about `sendBatch` (C3, C7, C9) -/

/-- **C3**: when `PutLogEvents` fails with `InvalidSequenceTokenException`
carrying expected token `t1`, `sendBatch` adopts `t1` and issues exactly
one retry of the same batch using `t1`; when that retry fails with a
second consecutive ordering conflict (expected token `t2`), the batch is
dropped: exactly two remote attempts are recorded — the original one with
the prior token and the retry with `t1` — and no third attempt occurs. -/
theorem sendBatch_conflict_retries_once (client : Nat → PutLogEventsResult)
    (batch : List InputLogEvent) (s : SenderState) (t1 t2 : Option String)
    (hb : batch ≠ [])
    (h0 : client s.attempts.length = .err (.invalidSequenceToken t1))
    (h1 : client (s.attempts.length + 1) = .err (.invalidSequenceToken t2)) :
    sendBatch client batch 0 s =
      { nextSequenceToken := t2, err := s.err,
        attempts := s.attempts ++ [s.nextSequenceToken, t1] } := by
  rw [sendBatch_step client batch 0 s (by omega) hb, h0]
  simp only [GoError.asInvalidSequenceToken]
  rw [sendBatch_step client batch 1 _ (by omega) hb]
  simp only [List.length_append, List.length_cons, List.length_nil]
  rw [show s.attempts.length + (0 + 1) = s.attempts.length + 1 by omega, h1]
  simp only [GoError.asInvalidSequenceToken]
  rw [sendBatch_guard client batch 2 _ (Or.inl (by omega))]
  simp

/-- Witness for `sendBatch_conflict_retries_once` at a concrete input. -/
theorem sendBatch_conflict_retries_once_witness :
    sendBatch doubleConflictClient [smallEvent] 0
        { nextSequenceToken := some "t0", err := none, attempts := [] } =
      { nextSequenceToken := some "t2", err := none,
        attempts := [some "t0", some "t1"] } := by
  have h := sendBatch_conflict_retries_once doubleConflictClient [smallEvent]
    { nextSequenceToken := some "t0", err := none, attempts := [] }
    (some "t1") (some "t2") (by simp) (by rfl) (by rfl)
  simpa using h

/-- **C7**: when `PutLogEvents` fails with any error other than an
ordering conflict, `sendBatch` stores that error in `err`, performs no
retry (exactly one remote attempt is recorded), leaves
`nextSequenceToken` unchanged, and returns — the batch is dropped, never
re-sent. -/
theorem sendBatch_other_error_drops (client : Nat → PutLogEventsResult)
    (batch : List InputLogEvent) (s : SenderState) (e : GoError)
    (hb : batch ≠ [])
    (h0 : client s.attempts.length = .err e)
    (hni : e.asInvalidSequenceToken = none) :
    sendBatch client batch 0 s =
      { s with err := some e,
               attempts := s.attempts ++ [s.nextSequenceToken] } := by
  rw [sendBatch_step client batch 0 s (by omega) hb, h0]
  simp [hni]

/-- Witness for `sendBatch_other_error_drops` at a concrete input. -/
theorem sendBatch_other_error_drops_witness :
    sendBatch networkErrorClient [smallEvent] 0
        { nextSequenceToken := some "t0", err := none, attempts := [] } =
      { nextSequenceToken := some "t0", err := some (.simple "network down"),
        attempts := [some "t0"] } := by
  have h := sendBatch_other_error_drops networkErrorClient [smallEvent]
    { nextSequenceToken := some "t0", err := none, attempts := [] }
    (.simple "network down") (by simp) (by rfl) (by rfl)
  simpa using h

/-! ## Helper lemmas about the dispatcher loop -/

theorem queueMonitorStep_none (interval : Int) (c : CycleInput)
    (s : DispatcherState) (hc : c.item = none) :
    queueMonitorStep interval c s =
      if c.closing then
        .halt { timerFlush c s with
                flushed := (timerFlush c s).flushed ++ [(timerFlush c s).batch],
                done := true }
      else .next (timerFlush c s) := by
  simp only [queueMonitorStep, hc]

theorem timerFlush_empty_batch (c : CycleInput) (s : DispatcherState)
    (hb : s.batch = []) :
    (timerFlush c s).batch = [] ∧
    remoteBatches (timerFlush c s).flushed = remoteBatches s.flushed := by
  unfold timerFlush
  split
  · simp [hb, remoteBatches]
  · simp [hb]

theorem remoteBatches_append_nil (fl : List (List InputLogEvent)) :
    remoteBatches (fl ++ [[]]) = remoteBatches fl := by
  simp [remoteBatches, List.filter_append]

theorem run_no_items (interval : Int) (cs : List CycleInput)
    (s : DispatcherState) (hb : s.batch = [])
    (h : ∀ c ∈ cs, c.item = none) :
    remoteBatches (queueMonitorRun interval cs s).flushed =
      remoteBatches s.flushed := by
  induction cs generalizing s with
  | nil => rfl
  | cons c cs ih =>
    have hc : c.item = none := h c (by simp)
    have hrest : ∀ c' ∈ cs, c'.item = none := fun c' hc' => h c' (by simp [hc'])
    obtain ⟨htb, htf⟩ := timerFlush_empty_batch c s hb
    rw [queueMonitorRun, queueMonitorStep_none interval c s hc]
    by_cases hcl : c.closing
    · rw [if_pos hcl]
      show remoteBatches ((timerFlush c s).flushed ++ [(timerFlush c s).batch]) =
        remoteBatches s.flushed
      rw [htb, remoteBatches_append_nil, htf]
    · rw [if_neg hcl]
      show remoteBatches (queueMonitorRun interval cs (timerFlush c s)).flushed =
        remoteBatches s.flushed
      rw [ih (timerFlush c s) htb hrest, htf]

/-! ## Theorems for C9, C5, C8 -/

/-- **C9**: `sendBatch` is a no-op — no remote call is recorded and
neither `nextSequenceToken` nor `err` changes — whenever the batch is
empty or `retryNum > 1`; and an idle writer (a dispatcher run in which
every dequeue finds the queue empty) hands zero batches to the remote
`PutLogEvents` call. -/
theorem sendBatch_noop_and_idle_writer :
    (∀ (client : Nat → PutLogEventsResult) (batch : List InputLogEvent)
       (retryNum : Nat) (s : SenderState),
       1 < retryNum ∨ batch = [] → sendBatch client batch retryNum s = s) ∧
    (∀ (interval t0 : Int) (cs : List CycleInput),
       (∀ c ∈ cs, c.item = none) →
       remoteBatches (queueMonitorRun interval cs
         (initialDispatcherState t0 interval)).flushed = []) := by
  constructor
  · exact sendBatch_guard
  · intro interval t0 cs h
    rw [run_no_items interval cs _ rfl h]
    rfl

/-- Witness for `sendBatch_noop_and_idle_writer` at concrete inputs. -/
theorem sendBatch_noop_and_idle_writer_witness :
    sendBatch networkErrorClient [] 0
        { nextSequenceToken := none, err := none, attempts := [] } =
      { nextSequenceToken := none, err := none, attempts := [] } ∧
    remoteBatches (queueMonitorRun 5000000000
        [{ now := 0, closing := false, item := none }]
        (initialDispatcherState 0 5000000000)).flushed = [] :=
  ⟨sendBatch_noop_and_idle_writer.1 networkErrorClient [] 0 _ (Or.inr rfl),
   sendBatch_noop_and_idle_writer.2 5000000000 0 _
     (by intro c hc; simp at hc; subst hc; rfl)⟩

/-- **C5**: `Write` always enqueues an event stamped with
`nowNanos / 1000000` (the epoch-millisecond clock reading); a stored
asynchronous send error is returned exactly once with 0 bytes accepted and
cleared, so the following `Write` (with no new failure) returns the input
length and a nil error. -/
theorem Write_timestamp_and_error_once (now1 now2 : Int) (log1 log2 : String)
    (q : List InputLogEvent) (e0 : GoError) :
    (Write now1 log1 { queue := q, err := some e0 }).1 = (0, some e0) ∧
    (Write now1 log1 { queue := q, err := some e0 }).2 =
      { queue := q ++ [{ message := some log1, timestamp := now1 / 1000000 }],
        err := none } ∧
    (Write now2 log2 (Write now1 log1 { queue := q, err := some e0 }).2).1 =
      (log2.length, none) ∧
    (Write now2 log2 (Write now1 log1 { queue := q, err := some e0 }).2).2.queue =
      q ++ [{ message := some log1, timestamp := now1 / 1000000 },
            { message := some log2, timestamp := now2 / 1000000 }] := by
  refine ⟨rfl, rfl, rfl, by simp [Write]⟩

/-- **C8**: `SetBatchInterval` errors exactly when the interval is below
the 200 ms floor `minBatchInterval`, leaving the state untouched on that
error; otherwise it stores the supplied interval and returns nil. -/
theorem SetBatchInterval_floor (interval : Int) (s : ConfigState) :
    (interval < minBatchInterval →
      SetBatchInterval interval s =
        (some (GoError.simple "supplied batch interval is less than the minimum"), s)) ∧
    (minBatchInterval ≤ interval →
      SetBatchInterval interval s = (none, { batchInterval := interval })) := by
  constructor
  · intro h
    simp [SetBatchInterval, h]
  · intro h
    simp [SetBatchInterval, not_lt.mpr h]

/-- Witness for `SetBatchInterval_floor` at concrete inputs: 100 ns is
rejected without mutation, exactly 200 ms is accepted and stored. -/
theorem SetBatchInterval_floor_witness :
    SetBatchInterval 100 { batchInterval := 5000000000 } =
      (some (GoError.simple "supplied batch interval is less than the minimum"),
       { batchInterval := 5000000000 }) ∧
    SetBatchInterval 200000000 { batchInterval := 5000000000 } =
      (none, { batchInterval := 200000000 }) :=
  ⟨(SetBatchInterval_floor 100 { batchInterval := 5000000000 }).1 (by decide),
   (SetBatchInterval_floor 200000000 { batchInterval := 5000000000 }).2 (by decide)⟩

/-! ## The batch-limit invariant (C1) -/

theorem sizeBytes_append (b : List InputLogEvent) (e : InputLogEvent) :
    sizeBytes (b ++ [e]) = sizeBytes b + eventSize e := by
  simp [sizeBytes]

theorem goodBatch_mk (b : List InputLogEvent) (size : Nat)
    (hsize : size = sizeBytes b) (hlen : b.length ≤ maxNumLogEvents)
    (hor : size ≤ batchSizeLimit ∨ b.length ≤ 1) : goodBatch b := by
  refine ⟨hlen, ?_⟩
  rcases hor with h1 | h1
  · exact Or.inl (by omega)
  · rcases Nat.lt_or_ge b.length 1 with h2 | h2
    · have hnil : b = [] := List.length_eq_zero.mp (by omega)
      exact Or.inl (by rw [hnil]; exact Nat.zero_le _)
    · exact Or.inr (by omega)

theorem goodBatch_of_inv (s : DispatcherState) (h : dispatcherInv s) :
    goodBatch s.batch := by
  obtain ⟨hsize, hlen, hor, _⟩ := h
  exact goodBatch_mk s.batch s.batchSize hsize (by omega) hor

theorem timerFlush_inv (c : CycleInput) (s : DispatcherState)
    (h : dispatcherInv s) : dispatcherInv (timerFlush c s) := by
  have hg := goodBatch_of_inv s h
  obtain ⟨hsize, hlen, hor, hfl⟩ := h
  unfold timerFlush
  split
  · refine ⟨rfl, by norm_num [maxNumLogEvents], Or.inl (Nat.zero_le _), ?_⟩
    intro b hb
    rcases List.mem_append.mp hb with h1 | h1
    · exact hfl b h1
    · rw [List.mem_singleton.mp h1]; exact hg
  · exact ⟨hsize, hlen, hor, hfl⟩

theorem countCheck_inv (interval now : Int) (s2 : DispatcherState)
    (hsize : s2.batchSize = sizeBytes s2.batch)
    (hlen : s2.batch.length ≤ maxNumLogEvents)
    (hor : s2.batchSize ≤ batchSizeLimit ∨ s2.batch.length ≤ 1)
    (hfl : ∀ b ∈ s2.flushed, goodBatch b) :
    dispatcherInv (countCheck interval now s2) := by
  unfold countCheck
  split
  · refine ⟨rfl, by norm_num [maxNumLogEvents], Or.inl (Nat.zero_le _), ?_⟩
    intro b hb
    rcases List.mem_append.mp hb with h1 | h1
    · exact hfl b h1
    · rw [List.mem_singleton.mp h1]
      exact goodBatch_mk s2.batch s2.batchSize hsize hlen hor
  · rename_i hcount
    exact ⟨hsize, by omega, hor, hfl⟩

theorem processEvent_inv (interval now : Int) (logEvent : InputLogEvent)
    (m : String) (s : DispatcherState) (hm : logEvent.message = some m)
    (h : dispatcherInv s) :
    dispatcherInv (processEvent interval now logEvent m s) := by
  have hg := goodBatch_of_inv s h
  obtain ⟨hsize, hlen, hor, hfl⟩ := h
  have hev : eventSize logEvent = m.length + additionalBytesPerLogEvent := by
    simp [eventSize, hm]
  unfold processEvent appendAndCountCheck
  split
  · rename_i hbig
    apply countCheck_inv
    · simp [sizeBytes_append, hev, sizeBytes]
    · simp [maxNumLogEvents]
    · exact Or.inr (by simp)
    · intro b hb
      rcases List.mem_append.mp hb with h1 | h1
      · exact hfl b h1
      · rw [List.mem_singleton.mp h1]; exact hg
  · rename_i hfit
    push_neg at hfit
    apply countCheck_inv
    · simp [sizeBytes_append, hev, hsize]
    · simp
      omega
    · exact Or.inl (by simpa using hfit)
    · exact hfl

theorem queueMonitorStep_inv (interval : Int) (c : CycleInput)
    (s : DispatcherState) (h : dispatcherInv s) :
    dispatcherInv (queueMonitorStep interval c s).state := by
  have h0 := timerFlush_inv c s h
  have hg0 := goodBatch_of_inv _ h0
  obtain ⟨hsize, hlen, hor, hfl⟩ := h0
  unfold queueMonitorStep
  cases c.item with
  | none =>
    by_cases hcl : c.closing
    · simp only [hcl, if_true, StepResult.state]
      refine ⟨hsize, hlen, hor, ?_⟩
      intro b hb
      rcases List.mem_append.mp hb with h1 | h1
      · exact hfl b h1
      · rw [List.mem_singleton.mp h1]; exact hg0
    · simp only [hcl, if_false, StepResult.state]
      exact ⟨hsize, hlen, hor, hfl⟩
  | some logEvent =>
    cases hm : logEvent.message with
    | none =>
      simp only [hm, StepResult.state]
      exact ⟨hsize, hlen, hor, hfl⟩
    | some m =>
      simp only [hm, StepResult.state]
      exact processEvent_inv interval c.now logEvent m (timerFlush c s) hm
        ⟨hsize, hlen, hor, hfl⟩

theorem queueMonitorRun_inv (interval : Int) (cs : List CycleInput)
    (s : DispatcherState) (h : dispatcherInv s) :
    dispatcherInv (queueMonitorRun interval cs s) := by
  induction cs generalizing s with
  | nil => exact h
  | cons c cs ih =>
    rw [queueMonitorRun]
    have hstep := queueMonitorStep_inv interval c s h
    cases hq : queueMonitorStep interval c s with
    | halt s1 => rw [hq] at hstep; exact hstep
    | next s1 => rw [hq] at hstep; exact ih s1 hstep

/-- **C1 amended**: over every dispatcher trace, every batch handed to
`sendBatch` — in particular every batch passed to the remote
`PutLogEvents` call — contains at most 10,000 events, and its
`sizeBytes` (the sum of `len(message) + 26` over its events) exceeds
1,048,576 bytes only when the batch consists of exactly one event. -/
theorem remoteBatches_limits (interval t0 : Int) (cs : List CycleInput) :
    ∀ b ∈ (queueMonitorRun interval cs
        (initialDispatcherState t0 interval)).flushed,
      b.length ≤ maxNumLogEvents ∧
      (sizeBytes b ≤ batchSizeLimit ∨ b.length = 1) := by
  have h := queueMonitorRun_inv interval cs (initialDispatcherState t0 interval)
    ⟨rfl, by simp [initialDispatcherState, maxNumLogEvents],
     Or.inl (Nat.zero_le _), by simp [initialDispatcherState]⟩
  exact h.2.2.2

/-- Witness for `remoteBatches_limits` at a concrete trace. -/
theorem remoteBatches_limits_witness :
    [smallEvent] ∈ (queueMonitorRun 5000000000 smallTrace
        (initialDispatcherState 0 5000000000)).flushed ∧
    ([smallEvent].length ≤ maxNumLogEvents ∧
      (sizeBytes [smallEvent] ≤ batchSizeLimit ∨ [smallEvent].length = 1)) :=
  ⟨by decide,
   remoteBatches_limits 5000000000 0 smallTrace [smallEvent] (by decide)⟩

theorem hugeMessage_length : hugeMessage.length = 1048551 :=
  List.length_replicate 1048551 'a'

theorem run_bigTrace (e : InputLogEvent) (m : String) (hm : e.message = some m)
    (hL : m.length = 1048551) :
    queueMonitorRun 5000000000
      [{ now := 0, closing := false, item := some e },
       { now := 0, closing := true, item := none }]
      (initialDispatcherState 0 5000000000) =
      { batch := [e], batchSize := 1048577, nextSendTime := 5000000000,
        flushed := [[], [e]], done := true } := by
  simp only [queueMonitorRun, queueMonitorStep, timerFlush,
    initialDispatcherState, processEvent, appendAndCountCheck, countCheck,
    hm, hL, additionalBytesPerLogEvent, batchSizeLimit, maxNumLogEvents]
  norm_num

theorem run_hugeTrace :
    queueMonitorRun 5000000000 hugeTrace (initialDispatcherState 0 5000000000) =
      { batch := [hugeEvent], batchSize := 1048577, nextSendTime := 5000000000,
        flushed := [[], [hugeEvent]], done := true } :=
  run_bigTrace hugeEvent hugeMessage rfl hugeMessage_length

theorem remoteBatches_pair (b : List InputLogEvent) (e : InputLogEvent) :
    remoteBatches [[], e :: b] = [e :: b] := by
  simp [remoteBatches]

theorem sizeBytes_single (e : InputLogEvent) (m : String)
    (hm : e.message = some m) :
    sizeBytes [e] = m.length + additionalBytesPerLogEvent := by
  simp [sizeBytes, eventSize, hm]

/-- **C1 counterexample**: a single `write()` of a 1,048,551-byte message
followed by `close()` produces a batch that is handed to the remote
`PutLogEvents` call whose `sizeBytes` is 1,048,577 > 1,048,576 — the
size check of line 195 runs before appending, so a lone oversized event
is still batched and sent. -/
theorem batch_size_limit_counterexample :
    [hugeEvent] ∈ remoteBatches (queueMonitorRun 5000000000 hugeTrace
        (initialDispatcherState 0 5000000000)).flushed ∧
    batchSizeLimit < sizeBytes [hugeEvent] := by
  rw [run_hugeTrace]
  constructor
  · show [hugeEvent] ∈ remoteBatches [[], [hugeEvent]]
    rw [remoteBatches_pair]
    exact List.mem_singleton.mpr rfl
  · rw [sizeBytes_single hugeEvent hugeMessage rfl, hugeMessage_length]
    norm_num [batchSizeLimit, additionalBytesPerLogEvent]

/-! ## The timer branch (C2) -/

/-- **C2** (code defect, evaluated at the failing input): in a cycle where
the wall-clock trigger fires (`now = 6 > nextSendTime = 5`), the batch is
flushed and the accumulators are reset, but the stored deadline is NOT
recomputed to `now + interval`: line 169 computes
`nextSendTime.Add(c.getBatchInterval())` and discards the pure result, so
`nextSendTime` stays 5 instead of becoming `6 + 5000000000`, and the
timer branch will fire again on every subsequent cycle. -/
theorem timer_branch_deadline_not_advanced :
    queueMonitorStep 5000000000 { now := 6, closing := false, item := none }
        { batch := [smallEvent], batchSize := 31, nextSendTime := 5,
          flushed := [], done := false } =
      .next { batch := [], batchSize := 0, nextSendTime := 5,
              flushed := [[smallEvent]], done := false } ∧
    (5 : Int) ≠ 6 + 5000000000 := by
  constructor
  · rfl
  · decide

/-! ## Close / drain (C4) -/

theorem timerFlush_join (c : CycleInput) (s : DispatcherState) :
    (timerFlush c s).flushed.flatten ++ (timerFlush c s).batch =
      s.flushed.flatten ++ s.batch := by
  unfold timerFlush
  split <;> simp

theorem countCheck_join (interval now : Int) (s2 : DispatcherState) :
    (countCheck interval now s2).flushed.flatten ++ (countCheck interval now s2).batch =
      s2.flushed.flatten ++ s2.batch := by
  unfold countCheck
  split <;> simp

theorem processEvent_join (interval now : Int) (e : InputLogEvent) (m : String)
    (s : DispatcherState) :
    (processEvent interval now e m s).flushed.flatten ++
        (processEvent interval now e m s).batch =
      s.flushed.flatten ++ s.batch ++ [e] := by
  unfold processEvent appendAndCountCheck
  rw [countCheck_join]
  split <;> simp

theorem queueMonitorStep_some (interval : Int) (c : CycleInput)
    (s : DispatcherState) (e : InputLogEvent) (m : String)
    (hc : c.item = some e) (hm : e.message = some m) :
    queueMonitorStep interval c s =
      .next (processEvent interval c.now e m (timerFlush c s)) := by
  simp only [queueMonitorStep, hc, hm]

theorem queueMonitorRun_halt_cons (interval : Int) (c : CycleInput)
    (cs : List CycleInput) (s : DispatcherState)
    (hc : c.item = none) (hcl : c.closing = true) :
    queueMonitorRun interval (c :: cs) s =
      { timerFlush c s with
        flushed := (timerFlush c s).flushed ++ [(timerFlush c s).batch],
        done := true } := by
  rw [queueMonitorRun, queueMonitorStep_none interval c s hc]
  simp only [hcl, if_true]

theorem queueMonitorRun_next_cons (interval : Int) (c : CycleInput)
    (cs : List CycleInput) (s s1 : DispatcherState)
    (h : queueMonitorStep interval c s = .next s1) :
    queueMonitorRun interval (c :: cs) s = queueMonitorRun interval cs s1 := by
  rw [queueMonitorRun, h]

/-- **C4**: once `closing` is observed, the dispatcher dequeues every
remaining queue event, and when the queue is empty it flushes the final
batch and fires the done signal: the run ends with `done = true`, the
concatenation of all batches ever handed to `sendBatch` is exactly the
previously flushed material, the partial batch, and every drained event,
in FIFO order and each exactly once; and any cycle environments after the
final one are never consumed — no further sends occur after the done
signal. -/
theorem close_drains_queue (interval tEnd : Int)
    (pairs : List (Int × InputLogEvent)) (extra : List CycleInput)
    (s : DispatcherState)
    (hmsg : ∀ p ∈ pairs, p.2.message ≠ none) :
    (queueMonitorRun interval (drainTrace pairs tEnd) s).done = true ∧
    (queueMonitorRun interval (drainTrace pairs tEnd) s).flushed.flatten =
      s.flushed.flatten ++ s.batch ++ pairs.map Prod.snd ∧
    queueMonitorRun interval (drainTrace pairs tEnd ++ extra) s =
      queueMonitorRun interval (drainTrace pairs tEnd) s := by
  induction pairs generalizing s with
  | nil =>
    have hrun := queueMonitorRun_halt_cons interval
      { now := tEnd, closing := true, item := none } [] s rfl rfl
    have hrun2 := queueMonitorRun_halt_cons interval
      { now := tEnd, closing := true, item := none } extra s rfl rfl
    refine ⟨?_, ?_, ?_⟩
    · rw [show drainTrace [] tEnd =
        [{ now := tEnd, closing := true, item := none }] from rfl, hrun]
    · rw [show drainTrace [] tEnd =
        [{ now := tEnd, closing := true, item := none }] from rfl, hrun]
      show ((timerFlush _ s).flushed ++ [(timerFlush _ s).batch]).flatten =
        s.flushed.flatten ++ s.batch ++ ([] : List (Int × InputLogEvent)).map Prod.snd
      rw [List.flatten_append]
      simp [timerFlush_join]
    · rw [show drainTrace [] tEnd ++ extra =
        { now := tEnd, closing := true, item := none } :: extra from rfl,
        show drainTrace [] tEnd =
        [{ now := tEnd, closing := true, item := none }] from rfl, hrun, hrun2]
  | cons p pairs ih =>
    obtain ⟨m, hm⟩ : ∃ m, p.2.message = some m := by
      cases hmm : p.2.message with
      | none => exact absurd hmm (hmsg p (by simp))
      | some m => exact ⟨m, rfl⟩
    have hmsg' : ∀ q ∈ pairs, q.2.message ≠ none := fun q hq =>
      hmsg q (by simp [hq])
    have hstep := queueMonitorStep_some interval
      { now := p.1, closing := true, item := some p.2 } s p.2 m rfl hm
    have hcons : drainTrace (p :: pairs) tEnd =
        { now := p.1, closing := true, item := some p.2 } ::
          drainTrace pairs tEnd := by
      simp [drainTrace]
    set s1 := processEvent interval p.1 p.2 m (timerFlush
      { now := p.1, closing := true, item := some p.2 } s) with hs1
    have hjoin : s1.flushed.flatten ++ s1.batch =
        s.flushed.flatten ++ s.batch ++ [p.2] := by
      rw [hs1, processEvent_join, timerFlush_join]
    obtain ⟨ih1, ih2, ih3⟩ := ih s1 hmsg'
    refine ⟨?_, ?_, ?_⟩
    · rw [hcons, queueMonitorRun_next_cons interval _ _ s s1 hstep]
      exact ih1
    · rw [hcons, queueMonitorRun_next_cons interval _ _ s s1 hstep, ih2]
      have hb : s1.batch = s1.batch := rfl
      calc s1.flushed.flatten ++ s1.batch ++ pairs.map Prod.snd
          = s.flushed.flatten ++ s.batch ++ [p.2] ++ pairs.map Prod.snd := by
            rw [hjoin]
        _ = s.flushed.flatten ++ s.batch ++ (p :: pairs).map Prod.snd := by
            simp
    · rw [hcons, List.cons_append,
        queueMonitorRun_next_cons interval _ _ s s1 hstep,
        queueMonitorRun_next_cons interval _ _ s s1 hstep]
      exact ih3

/-- Witness for `close_drains_queue` at a concrete drain. -/
theorem close_drains_queue_witness :
    (queueMonitorRun 5000000000 (drainTrace [(0, smallEvent)] 0)
        (initialDispatcherState 0 5000000000)).done = true ∧
    (queueMonitorRun 5000000000 (drainTrace [(0, smallEvent)] 0)
        (initialDispatcherState 0 5000000000)).flushed.flatten =
      (initialDispatcherState 0 5000000000).flushed.flatten ++
        (initialDispatcherState 0 5000000000).batch ++
        [(0, smallEvent)].map Prod.snd ∧
    queueMonitorRun 5000000000
        (drainTrace [(0, smallEvent)] 0 ++
          [{ now := 9, closing := true, item := none }])
        (initialDispatcherState 0 5000000000) =
      queueMonitorRun 5000000000 (drainTrace [(0, smallEvent)] 0)
        (initialDispatcherState 0 5000000000) :=
  close_drains_queue 5000000000 0 [(0, smallEvent)]
    [{ now := 9, closing := true, item := none }]
    (initialDispatcherState 0 5000000000) (by decide)

/-! ## Bootstrap retry behaviour (C6) -/

/-- **C6 counterexample**: against a client whose `DescribeLogStreams`
always fails with `ResourceNotFoundException` and whose `CreateLogGroup`
always succeeds, already within recursion depth 3 the stream query has
been issued three times — it is not retried "at most once more". -/
theorem bootstrap_retry_counterexample :
    ¬ ((getOrCreateLogStream alwaysMissingGroupClient 3
        { describeCalls := 0, createLogGroupCalls := 0,
          createLogStreamCalls := 0 }).2.describeCalls ≤ 2) := by
  decide

/-- **C6 amended**: after a missing-container failure the container is
created and the query retried, but the code places no bound on this: the
recursion repeats for as long as the query keeps failing with
missing-container and container creation keeps succeeding — under the
persistently-failing client, every unit of recursion depth issues one
more query and one more container creation, and the call never returns
(first conjunct).  The retry is bounded to one extra attempt — recursion
depth 2 suffices for the call to return — exactly when the retried query
does not again hit the missing-container-with-successful-creation case
(second conjunct). -/
theorem getOrCreateLogStream_retry_behaviour :
    (∀ (fuel : Nat) (tr : BootstrapTrace),
      getOrCreateLogStream alwaysMissingGroupClient fuel tr =
        (none, { describeCalls := tr.describeCalls + fuel,
                 createLogGroupCalls := tr.createLogGroupCalls + fuel,
                 createLogStreamCalls := tr.createLogStreamCalls })) ∧
    (∀ (client : BootstrapClient) (tr : BootstrapTrace),
      ¬ retriesMissingGroup client (tr.describeCalls + 1)
          (tr.createLogGroupCalls + 1) →
      (getOrCreateLogStream client 2 tr).1 ≠ none) := by
  constructor
  · intro fuel
    induction fuel with
    | zero => intro tr; rfl
    | succ n ih =>
      intro tr
      have hd : ∀ k, alwaysMissingGroupClient.describeLogStreams k =
          (none, some GoError.resourceNotFound) := fun _ => rfl
      have hg : ∀ k, alwaysMissingGroupClient.createLogGroup k = none :=
        fun _ => rfl
      rw [getOrCreateLogStream]
      simp only [hd, hg, errIsResourceNotFound, GoError.isResourceNotFound]
      rw [if_pos (Or.inl (by simp))]
      rw [if_pos trivial]
      rw [ih]
      refine congrArg (Prod.mk none) ?_
      have h1 : tr.describeCalls + 1 + n = tr.describeCalls + (n + 1) := by omega
      have h2 : tr.createLogGroupCalls + 1 + n =
        tr.createLogGroupCalls + (n + 1) := by omega
      rw [h1, h2]
  · intro client tr h
    rw [getOrCreateLogStream]
    by_cases hcond : (client.describeLogStreams tr.describeCalls).2 ≠ none ∨
        (client.describeLogStreams tr.describeCalls).1 = none
    · rw [if_pos hcond]
      by_cases hrnf :
          errIsResourceNotFound (client.describeLogStreams tr.describeCalls).2 = true
      · rw [if_pos hrnf]
        cases hg : client.createLogGroup tr.createLogGroupCalls with
        | some e => simp [hg]
        | none =>
          simp only [hg]
          rw [getOrCreateLogStream]
          by_cases hcond2 :
              (client.describeLogStreams (tr.describeCalls + 1)).2 ≠ none ∨
              (client.describeLogStreams (tr.describeCalls + 1)).1 = none
          · rw [if_pos hcond2]
            by_cases hrnf2 : errIsResourceNotFound
                (client.describeLogStreams (tr.describeCalls + 1)).2 = true
            · rw [if_pos hrnf2]
              cases hg2 : client.createLogGroup (tr.createLogGroupCalls + 1) with
              | some e => simp [hg2]
              | none => exact absurd ⟨hcond2, hrnf2, hg2⟩ h
            · rw [if_neg hrnf2]
              simp
          · rw [if_neg hcond2]
            cases hout : (client.describeLogStreams (tr.describeCalls + 1)).1 with
            | none => simp [hout] at hcond2
            | some o =>
              simp only [hout]
              cases o.logStreams with
              | nil =>
                cases client.createLogStream <;> simp
              | cons st rest => simp
      · rw [if_neg hrnf]
        simp
    · rw [if_neg hcond]
      cases hout : (client.describeLogStreams tr.describeCalls).1 with
      | none => simp [hout] at hcond
      | some o =>
        simp only [hout]
        cases o.logStreams with
        | nil =>
          cases client.createLogStream <;> simp
        | cons st rest => simp

/-- Witness for `getOrCreateLogStream_retry_behaviour` at concrete
inputs. -/
theorem getOrCreateLogStream_retry_behaviour_witness :
    getOrCreateLogStream alwaysMissingGroupClient 2
        { describeCalls := 0, createLogGroupCalls := 0,
          createLogStreamCalls := 0 } =
      (none, { describeCalls := 2, createLogGroupCalls := 2,
               createLogStreamCalls := 0 }) ∧
    (getOrCreateLogStream nilOutputClient 2
        { describeCalls := 0, createLogGroupCalls := 0,
          createLogStreamCalls := 0 }).1 ≠ none :=
  ⟨getOrCreateLogStream_retry_behaviour.1 2
      { describeCalls := 0, createLogGroupCalls := 0, createLogStreamCalls := 0 },
   getOrCreateLogStream_retry_behaviour.2 nilOutputClient
      { describeCalls := 0, createLogGroupCalls := 0, createLogStreamCalls := 0 }
      (by intro hc; exact absurd hc.2.1 (by decide))⟩

/-! ## Nil-stream / nil-error bootstrap result (C10) -/

/-- **C10** (code defect, evaluated at the failing input): for a client
whose `DescribeLogStreams` returns the Go pair `(nil, nil)`,
`getOrCreateLogStream` takes the error branch (line 272 checks
`output == nil`), fails the `ResourceNotFoundException` test, and returns
`errors.Wrap(nil, ...)` — which is nil — so its result is a nil stream
with a nil error; `NewWithClient` then passes its error check and
dereferences the nil `logStream` pointer reading `UploadSequenceToken`
(line 81). -/
theorem nil_output_nil_error_dereference :
    (getOrCreateLogStream nilOutputClient 1
        { describeCalls := 0, createLogGroupCalls := 0,
          createLogStreamCalls := 0 }).1 = some (none, none) ∧
    NewWithClient nilOutputClient defaultBatchInterval 1 =
      NewWithClientResult.nilDereference := by
  exact ⟨rfl, rfl⟩

end CloudWatchWriter
